import Mathlib

/-!
Verification of the GitButler workspace engine against its natural-language
specification. Each section embeds one part of the Rust source shallowly:
pure functions become Lean functions, stateful code becomes explicit state
passing, fallible code returns Except or Option.
-/

/-! ### TOML freshness comparison (crates/but-meta/src/legacy/storage.rs) -/

/-- The sync-relevant columns of the singleton state row, mirroring the
fields of VbState used by toml_compare in storage.rs. -/
structure VbSyncState where
  toml_last_seen_mtime_ns : Option Int
  toml_last_seen_sha256 : Option String
  deriving DecidableEq

/-- Direct embedding of toml_compare (storage.rs lines 144-154): compare the
observed TOML metadata against the last-seen metadata recorded in the DB. -/
def toml_compare (state : VbSyncState) (mtime_ns : Int) (sha256 : String) : Ordering :=
  match state.toml_last_seen_mtime_ns with
  | none => .gt
  | some last_seen =>
    if mtime_ns > last_seen then .gt
    else if mtime_ns < last_seen then .lt
    else
      match state.toml_last_seen_sha256 with
      | some last_seen_sha256 => if last_seen_sha256 = sha256 then .eq else .gt
      | none => .gt

/-- Action taken by ensure_vb_storage_in_sync in its initialized branch with a
parsed TOML file. -/
inductive TomlSyncAction where
  | importFile
  | rewriteFile
  | noOp
  deriving DecidableEq

/-- Embedding of the dispatch on toml_compare inside ensure_vb_storage_in_sync
(storage.rs lines 107-127): Greater imports the TOML file into the DB, Less
rewrites the file from the DB, Equal does nothing. -/
def ensure_sync_action (state : VbSyncState) (mtime_ns : Int) (sha256 : String) :
    TomlSyncAction :=
  match toml_compare state mtime_ns sha256 with
  | .gt => .importFile
  | .lt => .rewriteFile
  | .eq => .noOp

/-! ### Hook output handling (crates/gitbutler-repo/src/hooks.rs) -/

/-- Rust str::is_ascii: every character is in the ASCII range. -/
def strIsAscii (s : String) : Bool := s.data.all fun c => c.toNat < 128

/-- The " (Exit Code N)" suffix built by join_output from the optional exit code. -/
def exitCodeSuffix (code : Option Int) : String :=
  match code with
  | some code => " (Exit Code " ++ toString code ++ ")"
  | none => ""

/-- Direct embedding of join_output (hooks.rs lines 246-258), including its
condition stdout.is_empty() && stderr.is_ascii() exactly as written. -/
def join_output (stdout : String) (stderr : String) (code : Option Int) : String :=
  if stdout.isEmpty && strIsAscii stderr then
    "hook produced no output" ++ exitCodeSuffix code
  else if stdout.isEmpty then stderr
  else if stderr.isEmpty then stdout
  else "stdout:\n" ++ stdout ++ "\n\nstderr:\n" ++ stderr ++ exitCodeSuffix code

/-- Substring containment on lists, the semantics of Rust str::contains. -/
def listContainsSub {α : Type} [BEq α] (pat : List α) : List α → Bool
  | [] => pat.isEmpty
  | a :: rest => pat.isPrefixOf (a :: rest) || listContainsSub pat rest

/-- Rust str::contains for strings. -/
def strContains (s pat : String) : Bool := listContainsSub pat.data s.data

/-- The typed hook result (hooks.rs HookResult). -/
inductive HookResult where
  | success
  | notConfigured
  | failure (error : String)
  deriving DecidableEq

/-- Embedding of the RunNotSuccessful arm of pre_commit_with_tree
(hooks.rs lines 99-113): output containing GITBUTLER_ERROR is treated as the
managed workspace hook blocking the commit, hence Success; otherwise the
joined output becomes a Failure. -/
def pre_commit_run_not_successful (stdout stderr : String) (code : Option Int) : HookResult :=
  if strContains stdout "GITBUTLER_ERROR" || strContains stderr "GITBUTLER_ERROR" then
    .success
  else
    .failure (join_output stdout stderr code)

/-! ### Squash (crates/gitbutler-branch-actions/src/squash.rs) -/

/-- A commit as squash.rs observes it: id, conflict flag, message, parent ids
and tree id. Object ids are modelled as naturals. -/
structure GCommit where
  id : Nat
  conflicted : Bool
  message : String
  parents : List Nat
  tree : Nat
  deriving DecidableEq

/-- Embedding of validate (squash.rs lines 211-271). The checks run in source
order; only whether an error is produced matters to callers. -/
def squash_validate (branch_commit_oids : List Nat) (source_commits : List GCommit)
    (destination_commit : GCommit) (allow_rebasing : Bool) (remote_commits : List Nat) :
    Except String Unit :=
  if source_commits.any fun s => s.id = destination_commit.id then
    .error "cannot squash commit into itself"
  else if source_commits.any fun s => !(branch_commit_oids.contains s.id) then
    .error "source commit not in the stack"
  else if !(branch_commit_oids.contains destination_commit.id) then
    .error "destination commit not in the stack"
  else if source_commits.any (·.conflicted) then
    .error "cannot squash conflicted source commit"
  else if destination_commit.conflicted then
    .error "cannot squash into conflicted destination commit"
  else if !allow_rebasing && (source_commits.any fun s => remote_commits.contains s.id) then
    .error "Force push is not allowed and a source commit has already been pushed"
  else if !allow_rebasing && remote_commits.contains destination_commit.id then
    .error "Force push is not allowed and the destination commit has already been pushed"
  else .ok ()

/-- Rust char::is_whitespace: the Unicode White_Space property, i.e.
U+0009-U+000D, U+0020, U+0085, U+00A0, U+1680, U+2000-U+200A, U+2028,
U+2029, U+202F, U+205F and U+3000. -/
def rustIsWhitespace (c : Char) : Bool :=
  (0x09 ≤ c.toNat && c.toNat ≤ 0x0D) || c.toNat == 0x20 || c.toNat == 0x85 ||
    c.toNat == 0xA0 || c.toNat == 0x1680 ||
    (0x2000 ≤ c.toNat && c.toNat ≤ 0x200A) || c.toNat == 0x2028 ||
    c.toNat == 0x2029 || c.toNat == 0x202F || c.toNat == 0x205F ||
    c.toNat == 0x3000

/-- Rust msg.trim().is_empty(): true exactly when every character of the
message has the Unicode White_Space property, so trimming leaves nothing. -/
def trimmedEmpty (s : String) : Bool := s.data.all rustIsWhitespace

/-- The squashed commit message built by do_squash_commits (squash.rs lines
144-152): destination message first, then the source messages in order,
dropping messages that are empty after trimming, joined by single newlines. -/
def squash_new_message (destination_commit : GCommit) (source_commits : List GCommit) :
    String :=
  String.intercalate "\n"
    (((destination_commit :: source_commits).map (·.message)).filter
      fun msg => !trimmedEmpty msg)

/-- The commit emitted by do_squash_commits (squash.rs lines 153-167): the
squashed message, the destination commit's original parents, and the merged
tree computed by squash_tree. -/
def do_squash_new_commit (destination_commit : GCommit) (source_commits : List GCommit)
    (final_tree : Nat) (new_id : Nat) : GCommit :=
  { id := new_id
    conflicted := false
    message := squash_new_message destination_commit source_commits
    parents := destination_commit.parents
    tree := final_tree }

/-- Modelled from the spec: the oplog snapshot guard of section 4.6. The
OplogExt implementation of create_snapshot and restore_snapshot is not under
the sources; per the spec, capture copies the workspace state and restore
reinstates the captured copy. The control flow is the one of squash_commits
(squash.rs lines 26-41): capture, run do_squash_commits, restore on error. -/
def squash_commits {State E : Type} (do_squash : State → Except E Nat × State)
    (s : State) : Except E Nat × State :=
  let snap := s
  let result := do_squash s
  match result.1 with
  | .error e => (.error e, snap)
  | .ok oid => (.ok oid, result.2)

/-! ### Pre-commit hook index guard (crates/gitbutler-repo/src/hooks.rs) -/

/-- The repository index as pre_commit_with_tree observes it: the tree its
contents currently denote. -/
structure RepoIndexState where
  index_tree : Nat
  deriving DecidableEq

/-- Outcome of running the pre-commit hook script (git2_hooks::HookResult). -/
inductive HookRun where
  | ok
  | noHookFound
  | runNotSuccessful (stdout stderr : String) (code : Option Int)

/-- The body of pre_commit_with_tree (hooks.rs lines 91-115) after the scope
guard is installed: the proposed tree is read into the index and the hook runs.
Each fallible step is a parameter; the returned state is the index as the body
leaves it, before the guard fires. -/
def pre_commit_with_tree_body (st : RepoIndexState) (tree_id : Nat)
    (find_tree_ok : Bool) (index_write_ok : Bool) (hook : Except String HookRun) :
    Except String HookResult × RepoIndexState :=
  if !find_tree_ok then (.error "find_tree failed", st)
  else if !index_write_ok then (.error "index write failed", st)
  else
    let st' : RepoIndexState := { index_tree := tree_id }
    match hook with
    | .error e => (.error e, st')
    | .ok .ok => (.ok .success, st')
    | .ok .noHookFound => (.ok .notConfigured, st')
    | .ok (.runNotSuccessful stdout stderr code) =>
      (.ok (pre_commit_run_not_successful stdout stderr code), st')

/-- Embedding of pre_commit_with_tree (hooks.rs lines 79-116): the original
index tree is captured first, and the scope guard unconditionally resets the
index to it on every exit path of the body. -/
def pre_commit_with_tree (st : RepoIndexState) (tree_id : Nat)
    (find_tree_ok : Bool) (index_write_ok : Bool) (hook : Except String HookRun) :
    Except String HookResult × RepoIndexState :=
  let original_tree := st.index_tree
  let out := pre_commit_with_tree_body st tree_id find_tree_ok index_write_ok hook
  (out.1, { index_tree := original_tree })

/-! ### Commit create and amend (crates/but-workspace/src/commit/) -/

/-- Result of the commit engine's create_commit: the new commit id if any
spec applied, plus the rejected specs. Diff specs are modelled as naturals. -/
structure CreateCommitOutcome where
  new_commit : Option Nat
  rejected_specs : List Nat
  deriving DecidableEq

/-- Outcome of commit_create (commit_create.rs CommitCreateOutcome): the
rebase continuation is optional. -/
structure CommitCreateOutcome where
  rebase : Option Nat
  commit_selector : Option Nat
  rejected_specs : List Nat
  deriving DecidableEq

/-- Outcome of commit_amend (commit_amend.rs CommitAmendOutcome): the rebase
continuation is always present. -/
structure CommitAmendOutcome where
  rebase : Nat
  commit_selector : Option Nat
  rejected_specs : List Nat
  deriving DecidableEq

/-- Embedding of commit_create (commit_create.rs lines 45-88). The calls into
the commit engine and the editor are parameters: cc is the result of
create_commit, insert_res of editor.insert, rebase_res of editor.rebase.
When create_commit produced no commit the function returns early with no
rebase and no selector. -/
def commit_create (cc : Except String CreateCommitOutcome)
    (insert_res : Except String Nat) (rebase_res : Except String Nat) :
    Except String CommitCreateOutcome :=
  match cc with
  | .error e => .error e
  | .ok create_out =>
    match create_out.new_commit with
    | none =>
      .ok { rebase := none, commit_selector := none
            rejected_specs := create_out.rejected_specs }
    | some _ =>
      match insert_res with
      | .error e => .error e
      | .ok sel =>
        match rebase_res with
        | .error e => .error e
        | .ok reb =>
          .ok { rebase := some reb, commit_selector := some sel
                rejected_specs := create_out.rejected_specs }

/-- Embedding of commit_amend (commit_amend.rs lines 41-78). Conflicted
targets are refused; when create_commit produced no commit the editor is
still rebased and that rebase is returned with no selector. -/
def commit_amend (target_conflicted : Bool) (cc : Except String CreateCommitOutcome)
    (rebase_res : Except String Nat) (target_selector : Nat) :
    Except String CommitAmendOutcome :=
  if target_conflicted then .error "Cannot amend a conflicted commit"
  else
    match cc with
    | .error e => .error e
    | .ok create_out =>
      match create_out.new_commit with
      | none =>
        match rebase_res with
        | .error e => .error e
        | .ok reb =>
          .ok { rebase := reb, commit_selector := none
                rejected_specs := create_out.rejected_specs }
      | some _ =>
        match rebase_res with
        | .error e => .error e
        | .ok reb =>
          .ok { rebase := reb, commit_selector := some target_selector
                rejected_specs := create_out.rejected_specs }

/-! ### Virtual-branches DB snapshot (crates/but-db/src/table/virtual_branches.rs) -/

/-- The singleton vb_state row. -/
structure VbState where
  default_target_remote_name : Option String
  default_target_branch_name : Option String
  default_target_remote_url : Option String
  default_target_sha : Option String
  default_target_push_remote_name : Option String
  last_pushed_base_sha : Option String
  initialized : Bool
  toml_last_seen_mtime_ns : Option Int
  toml_last_seen_sha256 : Option String
  deriving DecidableEq

/-- A vb_stacks row. -/
structure VbStack where
  id : String
  source_refname : Option String
  upstream_remote_name : Option String
  upstream_branch_name : Option String
  sort_order : Int
  in_workspace : Bool
  legacy_name : String
  legacy_notes : String
  legacy_ownership : String
  legacy_allow_rebasing : Bool
  legacy_post_commits : Bool
  legacy_tree_sha : String
  legacy_head_sha : String
  legacy_created_timestamp_ms : String
  legacy_updated_timestamp_ms : String
  deriving DecidableEq

/-- A vb_stack_heads row. -/
structure VbStackHead where
  stack_id : String
  position : Int
  name : String
  head_sha : String
  pr_number : Option Int
  archived : Bool
  review_id : Option String
  deriving DecidableEq

/-- A vb_branch_targets row. -/
structure VbBranchTarget where
  stack_id : String
  remote_name : String
  branch_name : String
  remote_url : String
  sha : String
  push_remote_name : Option String
  deriving DecidableEq

/-- The normalized snapshot returned by get_snapshot. -/
structure VirtualBranchesSnapshot where
  state : VbState
  stack_rows : List VbStack
  heads : List VbStackHead
  branch_targets : List VbBranchTarget
  deriving DecidableEq

/-- The stored contents of the four VB tables, as unordered row lists. -/
structure VbTables where
  state_row : Option VbState
  stack_rows : List VbStack
  heads : List VbStackHead
  branch_targets : List VbBranchTarget
  deriving DecidableEq

/-- Stable sort by a key into a linear order, the semantics of the SQL
ORDER BY clauses used by get_snapshot. -/
def sortByKey {α β : Type} [LinearOrder β] (key : α → β) (l : List α) : List α :=
  List.insertionSort (fun a b => key a ≤ key b) l

/-- ORDER BY sort_order, id; TEXT columns compare bytewise, embedded as the
lexicographic order on the character list. -/
def stackSortKey (s : VbStack) : Int ×ₗ List Char := toLex (s.sort_order, s.id.data)

/-- ORDER BY stack_id, position. -/
def headSortKey (h : VbStackHead) : List Char ×ₗ Int := toLex (h.stack_id.data, h.position)

/-- ORDER BY stack_id. -/
def targetSortKey (t : VbBranchTarget) : List Char := t.stack_id.data

/-- Embedding of VirtualBranchesHandle::get_snapshot (virtual_branches.rs
lines 223-365): None exactly when the singleton vb_state row is absent,
otherwise the three row lists ordered by their SQL ORDER BY keys. -/
def get_snapshot (db : VbTables) : Option VirtualBranchesSnapshot :=
  match db.state_row with
  | none => none
  | some state =>
    some { state := state
           stack_rows := sortByKey stackSortKey db.stack_rows
           heads := sortByKey headSortKey db.heads
           branch_targets := sortByKey targetSortKey db.branch_targets }

/-! ### Step graph editor (but-rebase graph_rebase) -/

/-- A rebase step of the step graph (spec section 4.3). -/
inductive Step where
  | pick (commit_id : Nat)
  | reference (refname : String)
  | none
  deriving DecidableEq

/-- Modelled from the spec: the step graph of the graph rebase editor. The
editor's own sources are not under the source tree (only its tests and the
commit helpers are); per section 4.3 the graph is an arena of nodes keyed by
dense integer ids with ordered parent adjacency lists. -/
structure StepGraph where
  steps : Nat → Step
  parents : Nat → List Nat

/-- Modelled from the spec: disconnect(from, to) detaches a contiguous run
and rewires children of to to the parents of from, every child inheriting
the full parent set of from; here for a single-node run (from = to = m).
The run itself loses its own edges. -/
def disconnect (g : StepGraph) (m : Nat) : StepGraph :=
  { steps := g.steps
    parents := fun n =>
      if n = m then []
      else (g.parents n).flatMap fun p => if p = m then g.parents m else [p] }

/-- Modelled from the spec: replace(selector, step) swaps a node in place. -/
def replaceStep (g : StepGraph) (sel : Nat) (step : Step) : StepGraph :=
  { steps := fun n => if n = sel then step else g.steps n
    parents := g.parents }

/-- Modelled from the spec: during rebase a None step is skipped, its
outgoing edges rewritten to its incoming edges; fuel bounds the chain of
skipped None steps. -/
def resolveNone (g : StepGraph) : Nat → Nat → List Nat
  | 0, p => [p]
  | fuel + 1, p =>
    if g.steps p = Step.none then (g.parents p).flatMap (resolveNone g fuel)
    else [p]

/-- Modelled from the spec: the parent set the rebase executor emits for a
node, its graph parents resolved through skipped None steps. -/
def emittedParents (g : StepGraph) (fuel : Nat) (n : Nat) : List Nat :=
  (g.parents n).flatMap (resolveNone g fuel)

/-- The merge-with-two-children fixture of
but-rebase/tests/rebase/graph_rebase/disconnect.rs lines 138-150:
node 0 = base, 1 = P1, 2 = P2, 3 = M, 4 = C1, 5 = C2, 6 = tip. -/
def mergeFixtureGraph : StepGraph :=
  { steps := fun n => Step.pick n
    parents := fun n =>
      if n = 1 then [0]
      else if n = 2 then [0]
      else if n = 3 then [1, 2]
      else if n = 4 then [3]
      else if n = 5 then [3]
      else if n = 6 then [4, 5]
      else [] }

/-- Example singleton state row. -/
def exVbState : VbState :=
  { default_target_remote_name := none, default_target_branch_name := none
    default_target_remote_url := none, default_target_sha := none
    default_target_push_remote_name := none, last_pushed_base_sha := none
    initialized := true, toml_last_seen_mtime_ns := none, toml_last_seen_sha256 := none }

/-- Example stack row with the given id and sort order. -/
def exStack (sid : String) (ord : Int) : VbStack :=
  { id := sid, source_refname := none, upstream_remote_name := none
    upstream_branch_name := none, sort_order := ord, in_workspace := true
    legacy_name := "", legacy_notes := "", legacy_ownership := ""
    legacy_allow_rebasing := true, legacy_post_commits := false
    legacy_tree_sha := "", legacy_head_sha := ""
    legacy_created_timestamp_ms := "0", legacy_updated_timestamp_ms := "0" }

/-- Example stack head row. -/
def exHead (sid : String) (pos : Int) : VbStackHead :=
  { stack_id := sid, position := pos, name := sid, head_sha := ""
    pr_number := none, archived := false, review_id := none }

/-- Example branch target row. -/
def exTarget (sid : String) : VbBranchTarget :=
  { stack_id := sid, remote_name := "origin", branch_name := sid
    remote_url := "", sha := "", push_remote_name := none }

/-- Example table contents with rows deliberately out of order. -/
def exDb : VbTables :=
  { state_row := some exVbState
    stack_rows := [exStack "a" 2, exStack "b" 1]
    heads := [exHead "b" 1, exHead "a" 0, exHead "b" 0]
    branch_targets := [exTarget "b", exTarget "a"] }

/-- The snapshot get_snapshot returns for exDb. -/
def exSnapshot : VirtualBranchesSnapshot :=
  { state := exVbState
    stack_rows := [exStack "b" 1, exStack "a" 2]
    heads := [exHead "a" 0, exHead "b" 0, exHead "b" 1]
    branch_targets := [exTarget "a", exTarget "b"] }

/-! ## Theorems -/

theorem sortByKey_sorted {α β : Type} [LinearOrder β] (key : α → β) (l : List α) :
    (sortByKey key l).Sorted fun a b => key a ≤ key b := by
  haveI : IsTotal α fun a b => key a ≤ key b := ⟨fun a b => le_total (key a) (key b)⟩
  haveI : IsTrans α fun a b => key a ≤ key b := ⟨fun _ _ _ hab hbc => le_trans hab hbc⟩
  exact List.sorted_insertionSort _ l

theorem sortByKey_perm {α β : Type} [LinearOrder β] (key : α → β) (l : List α) :
    (sortByKey key l).Perm l :=
  List.perm_insertionSort _ l

/-- C1: with the store initialized and recorded last-seen metadata, the sync
run on a parsed TOML file imports the file exactly when its mtime is greater
than the last-seen mtime or the mtimes are equal and the sha256 differs,
rewrites the file exactly when its mtime is less than the last-seen mtime,
and does nothing exactly when both mtime and sha256 are equal. -/
theorem toml_sync_freshness (last_m : Int) (last_s : String) (mtime_ns : Int)
    (sha256 : String) :
    (ensure_sync_action ⟨some last_m, some last_s⟩ mtime_ns sha256 = .importFile ↔
      mtime_ns > last_m ∨ (mtime_ns = last_m ∧ sha256 ≠ last_s)) ∧
    (ensure_sync_action ⟨some last_m, some last_s⟩ mtime_ns sha256 = .rewriteFile ↔
      mtime_ns < last_m) ∧
    (ensure_sync_action ⟨some last_m, some last_s⟩ mtime_ns sha256 = .noOp ↔
      mtime_ns = last_m ∧ sha256 = last_s) := by
  have act : ensure_sync_action ⟨some last_m, some last_s⟩ mtime_ns sha256 =
      if last_m < mtime_ns then .importFile
      else if mtime_ns < last_m then .rewriteFile
      else if last_s = sha256 then .noOp else .importFile := by
    simp only [ensure_sync_action, toml_compare, gt_iff_lt]
    split_ifs <;> rfl
  rw [act]
  by_cases hgt : last_m < mtime_ns
  · rw [if_pos hgt]
    exact ⟨iff_of_true rfl (Or.inl hgt),
      iff_of_false (by simp) (by omega),
      iff_of_false (by simp) (by rintro ⟨h', -⟩; omega)⟩
  · rw [if_neg hgt]
    by_cases hlt : mtime_ns < last_m
    · rw [if_pos hlt]
      exact ⟨iff_of_false (by simp) (by rintro (h' | ⟨h', -⟩) <;> omega),
        iff_of_true rfl hlt,
        iff_of_false (by simp) (by rintro ⟨h', -⟩; omega)⟩
    · have heq : mtime_ns = last_m := by omega
      rw [if_neg hlt]
      by_cases hsha : last_s = sha256
      · rw [if_pos hsha]
        refine ⟨iff_of_false (by simp) ?_,
          iff_of_false (by simp) (by omega),
          iff_of_true rfl ⟨heq, hsha.symm⟩⟩
        rintro (h' | ⟨-, h''⟩)
        · omega
        · exact h'' hsha.symm
      · rw [if_neg hsha]
        exact ⟨iff_of_true rfl (Or.inr ⟨heq, fun hh => hsha hh.symm⟩),
          iff_of_false (by simp) (by omega),
          iff_of_false (by simp) (by rintro ⟨-, h''⟩; exact hsha h''.symm)⟩

/-- C5: squash_commits captures a snapshot before the mutation; if the
mutation errors the snapshot is restored so the post-state equals the state
at capture time, and on success no restore happens and the mutation's commit
id and state are returned. -/
theorem squash_commits_snapshot_guard {State E : Type}
    (do_squash : State → Except E Nat × State) (s : State) :
    (∀ e, (squash_commits do_squash s).1 = .error e →
      (squash_commits do_squash s).2 = s) ∧
    (∀ oid, (squash_commits do_squash s).1 = .ok oid →
      (do_squash s).1 = .ok oid ∧ (squash_commits do_squash s).2 = (do_squash s).2) := by
  unfold squash_commits
  rcases hr : (do_squash s).1 with e | oid <;> simp [hr]

/-- C5 witness: a failing mutation leaves the state as captured, a
succeeding one passes its commit id through. -/
theorem squash_commits_snapshot_guard_witness :
    (squash_commits (fun n : Nat => ((Except.error "boom" : Except String Nat), n + 1)) 0).2
      = 0 ∧
    (squash_commits (fun n : Nat => ((Except.ok 42 : Except String Nat), n + 1)) 5).2 = 6 := by
  exact ⟨(squash_commits_snapshot_guard
      (fun n : Nat => ((Except.error "boom" : Except String Nat), n + 1)) 0).1 "boom" rfl,
    ((squash_commits_snapshot_guard
      (fun n : Nat => ((Except.ok 42 : Except String Nat), n + 1)) 5).2 42 rfl).2⟩

/-- C7 counterexample: when create_commit rejects every change spec,
commit_create returns successfully with the full rejected list but with NO
rebase continuation, contradicting the claim that the rebase result is still
returned. -/
theorem commit_create_all_rejected_counterexample :
    commit_create (.ok ⟨none, [7]⟩) (.ok 1) (.ok 2) =
      .ok { rebase := none, commit_selector := none, rejected_specs := [7] } ∧
    (commit_create (.ok ⟨none, [7]⟩) (.ok 1) (.ok 2) ≠
      .ok { rebase := some 2, commit_selector := none, rejected_specs := [7] }) := by
  constructor
  · rfl
  · intro h
    simp [commit_create] at h

/-- C7 (amended): when create_commit rejects every change spec, commit_create
returns without error, produces no commit and no rebase continuation, and
returns the full rejected list; commit_amend in the same situation still
returns the rebase continuation. -/
theorem commit_all_rejected_behaviour (rejected : List Nat)
    (insert_res rebase_res : Except String Nat) (reb sel : Nat) :
    commit_create (.ok ⟨none, rejected⟩) insert_res rebase_res =
      .ok { rebase := none, commit_selector := none, rejected_specs := rejected } ∧
    commit_amend false (.ok ⟨none, rejected⟩) (.ok reb) sel =
      .ok { rebase := reb, commit_selector := none, rejected_specs := rejected } := by
  exact ⟨rfl, rfl⟩

/-- C8: evaluating join_output at a run with empty stdout, non-empty ASCII
stderr and exit code 1 shows the stderr text is dropped entirely from the
error text, because the source tests stderr.is_ascii() where it means to
test stderr.is_empty(). -/
theorem join_output_drops_ascii_stderr :
    join_output "" "boom" (some 1) = "hook produced no output (Exit Code 1)" ∧
    strContains (join_output "" "boom" (some 1)) "boom" = false := by
  constructor <;> rfl

/-- C9: pre_commit_with_tree restores the repository index to its original
state on every exit path, so the index after the call equals the index
before it. -/
theorem pre_commit_with_tree_restores_index (st : RepoIndexState) (tree_id : Nat)
    (find_tree_ok index_write_ok : Bool) (hook : Except String HookRun) :
    (pre_commit_with_tree st tree_id find_tree_ok index_write_ok hook).2 = st := by
  cases st
  rfl

/-- C10: a non-zero pre-commit hook run is reported as Success exactly when
its stdout or stderr contains the substring GITBUTLER_ERROR, and otherwise
as a Failure carrying the joined output. -/
theorem pre_commit_gitbutler_error_class (stdout stderr : String) (code : Option Int) :
    (pre_commit_run_not_successful stdout stderr code = .success ↔
      (strContains stdout "GITBUTLER_ERROR" = true ∨
        strContains stderr "GITBUTLER_ERROR" = true)) ∧
    (pre_commit_run_not_successful stdout stderr code = .failure (join_output stdout stderr code) ↔
      (strContains stdout "GITBUTLER_ERROR" = false ∧
        strContains stderr "GITBUTLER_ERROR" = false)) := by
  unfold pre_commit_run_not_successful
  rcases h1 : strContains stdout "GITBUTLER_ERROR" <;>
    rcases h2 : strContains stderr "GITBUTLER_ERROR" <;>
    simp [h1, h2]

/-- C2: after disconnect(M,M), replacing the merge node M with the None step
and rebasing, each of M's children has parent set {P1, P2} (in M's parent
order) and no longer has M among its parents. -/
theorem disconnect_merge_children (g : StepGraph) (m p1 p2 c1 c2 fuel : Nat)
    (hmp : g.parents m = [p1, p2]) (hc1 : g.parents c1 = [m]) (hc2 : g.parents c2 = [m])
    (hp1 : p1 ≠ m) (hp2 : p2 ≠ m) (hc1m : c1 ≠ m) (hc2m : c2 ≠ m)
    (hs1 : g.steps p1 ≠ Step.none) (hs2 : g.steps p2 ≠ Step.none) :
    emittedParents (replaceStep (disconnect g m) m Step.none) (fuel + 1) c1 = [p1, p2] ∧
    emittedParents (replaceStep (disconnect g m) m Step.none) (fuel + 1) c2 = [p1, p2] ∧
    m ∉ emittedParents (replaceStep (disconnect g m) m Step.none) (fuel + 1) c1 ∧
    m ∉ emittedParents (replaceStep (disconnect g m) m Step.none) (fuel + 1) c2 := by
  have hres1 : resolveNone (replaceStep (disconnect g m) m Step.none) (fuel + 1) p1 = [p1] := by
    simp [resolveNone, replaceStep, disconnect, hp1, hs1]
  have hres2 : resolveNone (replaceStep (disconnect g m) m Step.none) (fuel + 1) p2 = [p2] := by
    simp [resolveNone, replaceStep, disconnect, hp2, hs2]
  have he : ∀ c, g.parents c = [m] → c ≠ m →
      emittedParents (replaceStep (disconnect g m) m Step.none) (fuel + 1) c = [p1, p2] := by
    intro c hc hcm
    have hpar : (replaceStep (disconnect g m) m Step.none).parents c = [p1, p2] := by
      simp [replaceStep, disconnect, hc, hcm, hmp]
    unfold emittedParents
    rw [hpar]
    simp [hres1, hres2]
  refine ⟨he c1 hc1 hc1m, he c2 hc2 hc2m, ?_, ?_⟩ <;>
    rw [he _ (by assumption) (by assumption)] <;>
    simp [Ne.symm hp1, Ne.symm hp2]

/-- C2 witness: the merge-with-two-children fixture, removing M = node 3
with parents P1 = 1, P2 = 2 and children C1 = 4, C2 = 5. -/
theorem disconnect_merge_children_witness :
    emittedParents (replaceStep (disconnect mergeFixtureGraph 3) 3 Step.none) 1 4 = [1, 2] ∧
    emittedParents (replaceStep (disconnect mergeFixtureGraph 3) 3 Step.none) 1 5 = [1, 2] ∧
    3 ∉ emittedParents (replaceStep (disconnect mergeFixtureGraph 3) 3 Step.none) 1 4 ∧
    3 ∉ emittedParents (replaceStep (disconnect mergeFixtureGraph 3) 3 Step.none) 1 5 :=
  disconnect_merge_children mergeFixtureGraph 3 1 2 4 5 0 (by decide) (by decide) (by decide)
    (by decide) (by decide) (by decide) (by decide) (by decide) (by decide)

/-- C3 counterexample: squashing sources Y and a whitespace-only message
into destination X emits the message X newline Y; the whitespace-only source
message is dropped, not concatenated as the claim states. -/
theorem squash_message_counterexample :
    (do_squash_new_commit ⟨0, false, "X", [7], 10⟩
        [⟨1, false, "Y", [0], 11⟩, ⟨2, false, " ", [1], 12⟩] 13 14).message = "X\nY" ∧
    (do_squash_new_commit ⟨0, false, "X", [7], 10⟩
        [⟨1, false, "Y", [0], 11⟩, ⟨2, false, " ", [1], 12⟩] 13 14).message ≠
      "X\nY\n " := by
  constructor <;> decide

/-- C3 (amended): when no involved commit message is empty after trimming,
the squash commit's message is the destination-first concatenation of all
the messages joined by single newlines, and its parents are the destination
commit's original parents. -/
theorem squash_message_and_parents (destination_commit : GCommit)
    (source_commits : List GCommit) (final_tree new_id : Nat)
    (h : ∀ c ∈ destination_commit :: source_commits, trimmedEmpty c.message = false) :
    (do_squash_new_commit destination_commit source_commits final_tree new_id).message =
      String.intercalate "\n" ((destination_commit :: source_commits).map (·.message)) ∧
    (do_squash_new_commit destination_commit source_commits final_tree new_id).parents =
      destination_commit.parents := by
  constructor
  · simp only [do_squash_new_commit, squash_new_message]
    congr 1
    refine List.filter_eq_self.mpr ?_
    intro msg hm
    obtain ⟨c, hc, rfl⟩ := List.mem_map.mp hm
    simp [h c hc]
  · rfl

/-- C3 witness: squashing Y and Z into X yields the message X, Y, Z joined
by newlines and the destination's parent list. -/
theorem squash_message_and_parents_witness :
    (do_squash_new_commit ⟨0, false, "X", [7], 10⟩
        [⟨1, false, "Y", [0], 11⟩, ⟨2, false, "Z", [1], 12⟩] 13 14).message = "X\nY\nZ" ∧
    (do_squash_new_commit ⟨0, false, "X", [7], 10⟩
        [⟨1, false, "Y", [0], 11⟩, ⟨2, false, "Z", [1], 12⟩] 13 14).parents = [7] := by
  have h := squash_message_and_parents ⟨0, false, "X", [7], 10⟩
    [⟨1, false, "Y", [0], 11⟩, ⟨2, false, "Z", [1], 12⟩] 13 14 (by decide)
  exact ⟨h.1.trans (by decide), h.2⟩

/-- C4: squash validation succeeds exactly when no source equals the
destination, every source and the destination are among the stack's commits,
no source nor the destination is conflicted, and, when the stack disallows
rebasing, no source nor the destination has been pushed to the remote. -/
theorem squash_validate_ok_iff (branch_commit_oids : List Nat)
    (source_commits : List GCommit) (destination_commit : GCommit)
    (allow_rebasing : Bool) (remote_commits : List Nat) :
    squash_validate branch_commit_oids source_commits destination_commit
        allow_rebasing remote_commits = .ok () ↔
      ((∀ s ∈ source_commits, s.id ≠ destination_commit.id) ∧
        (∀ s ∈ source_commits, s.id ∈ branch_commit_oids) ∧
        destination_commit.id ∈ branch_commit_oids ∧
        (∀ s ∈ source_commits, s.conflicted = false) ∧
        destination_commit.conflicted = false ∧
        (allow_rebasing = false →
          (∀ s ∈ source_commits, s.id ∉ remote_commits) ∧
          destination_commit.id ∉ remote_commits)) := by
  unfold squash_validate
  split_ifs with h1 h2 h3 h4 h5 h6 h7 <;>
    simp_all [List.any_eq_true, Bool.and_eq_true, Bool.not_eq_true',
      List.contains_iff_exists_mem_beq, beq_iff_eq]

/-- C4 witness: a validation call satisfying all preconditions passes. -/
theorem squash_validate_ok_iff_witness :
    squash_validate [1, 2] [⟨1, false, "a", [], 0⟩] ⟨2, false, "b", [], 0⟩ false [] =
      .ok () :=
  (squash_validate_ok_iff [1, 2] [⟨1, false, "a", [], 0⟩] ⟨2, false, "b", [], 0⟩ false []).mpr
    (by decide)

/-- C6: get_snapshot returns None exactly when the singleton state row is
absent; a successful read returns the stacks sorted by (sort_order, id), the
heads sorted by (stack_id, position) and the branch targets sorted by
stack_id, each a permutation of the stored rows, together with the stored
state row. -/
theorem get_snapshot_ordering (db : VbTables) :
    (get_snapshot db = none ↔ db.state_row = none) ∧
    (∀ snap, get_snapshot db = some snap →
      (snap.stack_rows.Sorted fun a b => stackSortKey a ≤ stackSortKey b) ∧
      snap.stack_rows.Perm db.stack_rows ∧
      (snap.heads.Sorted fun a b => headSortKey a ≤ headSortKey b) ∧
      snap.heads.Perm db.heads ∧
      (snap.branch_targets.Sorted fun a b => targetSortKey a ≤ targetSortKey b) ∧
      snap.branch_targets.Perm db.branch_targets ∧
      db.state_row = some snap.state) := by
  rcases hdb : db.state_row with _ | st
  · refine ⟨by simp [get_snapshot, hdb], ?_⟩
    intro snap hsnap
    simp [get_snapshot, hdb] at hsnap
  · refine ⟨by simp [get_snapshot, hdb], ?_⟩
    intro snap hsnap
    simp only [get_snapshot, hdb] at hsnap
    obtain rfl := (Option.some.injEq _ _).mp hsnap
    exact ⟨sortByKey_sorted _ _, sortByKey_perm _ _,
      sortByKey_sorted _ _, sortByKey_perm _ _,
      sortByKey_sorted _ _, sortByKey_perm _ _, rfl⟩

/-- C6 witness: reading the example tables returns the rows sorted by their
contractual keys. -/
theorem get_snapshot_ordering_witness :
    (exSnapshot.stack_rows.Sorted fun a b => stackSortKey a ≤ stackSortKey b) ∧
    exSnapshot.stack_rows.Perm exDb.stack_rows ∧
    (exSnapshot.heads.Sorted fun a b => headSortKey a ≤ headSortKey b) ∧
    exSnapshot.heads.Perm exDb.heads ∧
    (exSnapshot.branch_targets.Sorted fun a b => targetSortKey a ≤ targetSortKey b) ∧
    exSnapshot.branch_targets.Perm exDb.branch_targets ∧
    exDb.state_row = some exSnapshot.state :=
  (get_snapshot_ordering exDb).2 exSnapshot (by decide)
